/-
Verification of the AutoML Natural Language sentiment-model CLI sample
(`language/automl/automl_natural_language_sentiment_model.py`).

The Python program is a set of one-shot commands, each of which builds a
resource path, issues one or two remote calls through an AutoML client, and
prints a textual report.  We embed it shallowly: the remote service and the
ambient environment (local-timezone conversion, protobuf text rendering) are
a record of response functions `Env`; every command becomes a pure Lean
function from `Env` and its string arguments to a `CmdRun`, the list of
timestamped events the command performs (client construction, remote calls,
printed lines) together with its termination result.  Timestamps are 0
everywhere except in `delete_model`, where the blocking `response.result()`
wait is modelled by stamping the wait and the subsequent print with the
completion time of the remote delete operation.  Python floats are embedded
as rationals, with `round(x, 2)` modelled exactly as
round-half-to-even at two decimal places.
-/
import Mathlib

namespace AutoMLSample

/-! ## Resource paths

The GAPIC client helpers `client.location_path`, `client.model_path` and
`client.model_evaluation_path` are pure string formatters:
`"projects/{project}/locations/{location}"` and so on. -/

/-- The path built by `client.location_path(project_id, compute_region)`. -/
def location_path (project_id compute_region : String) : String :=
  "projects/" ++ project_id ++ "/locations/" ++ compute_region

/-- The path built by `client.model_path(project_id, compute_region, model_id)`. -/
def model_path (project_id compute_region model_id : String) : String :=
  location_path project_id compute_region ++ "/models/" ++ model_id

/-- The path built by `client.model_evaluation_path(...)`. -/
def model_evaluation_path
    (project_id compute_region model_id model_evaluation_id : String) : String :=
  model_path project_id compute_region model_id
    ++ "/modelEvaluations/" ++ model_evaluation_id

/-- A well-formed path component: it contains no `/` separator. -/
def NoSlash (s : String) : Prop := ('/' : Char) ∉ s.data

instance (s : String) : Decidable (NoSlash s) := by
  unfold NoSlash; infer_instance

/-! ## Python `str.split` and last path segments

The program extracts ids with `name.split("/")[-1]`.  `splitChar` is Python
`str.split` with a one-character separator (empty pieces are kept, the split
of `""` is `[""]`); `pySplitLast` takes the final piece, i.e. `[-1]`. -/

/-- Python `s.split(sep)` for a single-character separator, on char lists. -/
def splitChar (sep : Char) : List Char → List (List Char)
  | [] => [[]]
  | c :: cs =>
    match splitChar sep cs with
    | [] => [[]]
    | h :: t => if c = sep then [] :: h :: t else (c :: h) :: t

/-- Python `s.split(sep)[-1]`: the final piece of the split. -/
def pySplitLast (sep : Char) (s : String) : String :=
  String.mk ((splitChar sep s.data).getLastD [])

/-- The suffix of a char list strictly after the last occurrence of `sep`
(the whole list when `sep` does not occur).  This follows the wording of the
specification ("the substring of the name after the last `/` separator") and
is compared against the `split`-based extraction the code performs. -/
def suffixAfterLast (sep : Char) : List Char → List Char
  | [] => []
  | c :: cs =>
    if sep ∈ cs then suffixAfterLast sep cs
    else if c = sep then cs else c :: cs

/-- String form of `suffixAfterLast` for the `/` separator. -/
def suffixAfterLastSlash (s : String) : String :=
  String.mk (suffixAfterLast '/' s.data)

/-! ## Python rounding and percentage formatting -/

/-- Rounding to the nearest integer, ties to even: the rule used by Python
`round`. -/
def round_half_even (q : ℚ) : Int :=
  let f := ⌊q⌋
  let r := q - (f : ℚ)
  if r < 1/2 then f
  else if 1/2 < r then f + 1
  else if f % 2 = 0 then f else f + 1

/-- Python `round(q, 2)`: round to two decimal places, ties to even. -/
def round2 (q : ℚ) : ℚ := (round_half_even (q * 100) : ℚ) / 100

/-- The numeric value displayed for a metric `x` by `display_evaluation`:
`round(x * 100, 2)`. -/
def percentFormatValue (x : ℚ) : ℚ := round2 (x * 100)

/-- Decimal rendering of a value produced by `round2` (an integer multiple
of `1/100`), mirroring how Python prints such a rounded float: at least one
fractional digit, no trailing zero in the second place. -/
def showRound2 (q : ℚ) : String :=
  let k : Int := ⌊q * 100⌋
  let sign := if k < 0 then "-" else ""
  let a := k.natAbs
  let ip := a / 100
  let fr := a % 100
  if fr = 0 then sign ++ toString ip ++ ".0"
  else if fr % 10 = 0 then sign ++ toString ip ++ "." ++ toString (fr / 10)
  else sign ++ toString ip ++ "." ++ (if fr < 10 then "0" else "") ++ toString fr

/-- Plain rendering of an unrounded metric value (abstracts Python float
`repr` in `get_model_evaluation`, where no claim depends on the digits). -/
def showMetric (q : ℚ) : String := toString q.num ++ "/" ++ toString q.den

/-! ## Data model: the response shapes the program reads -/

/-- The `text_sentiment_evaluation_metrics` message of a model evaluation. -/
structure TextSentimentEvaluationMetrics where
  precision : ℚ
  recall_ : ℚ
  f1_score : ℚ
  mean_absolute_error : ℚ
  mean_squared_error : ℚ
  linear_kappa : ℚ
  quadratic_kappa : ℚ
  deriving Repr, DecidableEq

/-- A model-evaluation record: scoped to one annotation class when
`annotation_spec_id` is non-empty, to the overall model when it is empty. -/
structure ModelEvaluation where
  name : String
  annotation_spec_id : String
  text_sentiment_evaluation_metrics : TextSentimentEvaluationMetrics
  deriving Repr, DecidableEq

/-- A protobuf timestamp (only the seconds field is read by the program). -/
structure Timestamp where
  seconds : Int
  deriving Repr, DecidableEq

/-- The deployment-state enumeration of the remote API, as its wire integer
values.  A proto3 enum field can carry any integer, so classification is
stated over all of `Int`. -/
def DeploymentState.UNSPECIFIED : Int := 0

/-- The `DEPLOYED` enumeration value. -/
def DeploymentState.DEPLOYED : Int := 1

/-- The `UNDEPLOYED` enumeration value. -/
def DeploymentState.UNDEPLOYED : Int := 2

/-- A model record as read by `list_models` and `get_model`. -/
structure Model where
  name : String
  display_name : String
  deployment_state : Int
  create_time : Timestamp
  deriving Repr, DecidableEq

/-- The model payload assembled by `create_model` (the
`text_sentiment_model_metadata` marker is an empty message). -/
structure ModelSpec where
  display_name : String
  dataset_id : String
  text_sentiment_model_metadata : Unit
  deriving Repr, DecidableEq

/-- The operation info inside a `create_model` response. -/
structure OperationInfo where
  name : String
  deriving Repr, DecidableEq

/-- The response of the remote `create_model` call. -/
structure CreateModelResponse where
  operation : OperationInfo
  deriving Repr, DecidableEq

/-- The future returned by the remote `delete_model` call.  `resultValue` is
the textual result that `response.result()` yields, and `completesAt` is the
instant at which the remote asynchronous deletion completes; the value is
observable only from that instant on. -/
structure DeleteFuture where
  completesAt : Nat
  resultValue : String
  deriving Repr, DecidableEq

/-- A broken-down local datetime, the result of `datetime.fromtimestamp`. -/
structure DateTime where
  year : Nat
  month : Nat
  day : Nat
  hour : Nat
  minute : Nat
  second : Nat
  deriving Repr, DecidableEq

/-- Zero-padding to two digits, as `strftime` produces. -/
def pad2 (n : Nat) : String :=
  if n < 10 then "0" ++ toString n else toString n

/-- `strftime("%Y-%m-%dT%H:%M:%SZ")` on a broken-down datetime. -/
def strftimeZ (d : DateTime) : String :=
  toString d.year ++ "-" ++ pad2 d.month ++ "-" ++ pad2 d.day ++ "T"
    ++ pad2 d.hour ++ ":" ++ pad2 d.minute ++ ":" ++ pad2 d.second ++ "Z"

/-! ## The remote service and ambient environment -/

/-- The behaviour of the remote AutoML service together with the ambient
environment functions the program uses: each field gives the response the
corresponding remote call returns (the service is treated as a deterministic
oracle for one invocation), `fromtimestamp` models the local-timezone
epoch-to-datetime conversion, and `render_model_evaluation` models the
protobuf text rendering performed by `print(element)`. -/
structure Env where
  create_model : String → ModelSpec → CreateModelResponse
  get_operation : String → String
  list_models : String → String → List Model
  get_model : String → Model
  list_model_evaluations : String → List ModelEvaluation
  get_model_evaluation : String → ModelEvaluation
  delete_model : String → DeleteFuture
  fromtimestamp : Int → DateTime
  render_model_evaluation : ModelEvaluation → String

/-- One remote call issued through the client, with its argument(s). -/
inductive RemoteCall where
  | createModel (parent : String) (spec : ModelSpec)
  | getOperation (operation_full_id : String)
  | listModels (parent : String) (filt : String)
  | getModel (name : String)
  | listModelEvaluations (parent : String)
  | getModelEvaluation (name : String)
  | deleteModel (name : String)
  deriving Repr, DecidableEq

/-- One observable event of a command run. -/
inductive Event where
  | newClient
  | call (c : RemoteCall)
  | waitResult (name : String)
  | printLine (s : String)
  deriving Repr, DecidableEq

/-- A command run: its timestamped event trace and its termination result
(`Except.error` models an uncaught Python exception). -/
structure CmdRun where
  trace : List (Nat × Event)
  result : Except String Unit
  deriving Repr

/-- The line printed by an event, if it is a print. -/
def printedOf (te : Nat × Event) : Option String :=
  match te.2 with
  | Event.printLine s => some s
  | _ => none

/-- The line printed by an event together with the instant it is printed
at, if the event is a print. -/
def printedAtOf (te : Nat × Event) : Option (Nat × String) :=
  match te.2 with
  | Event.printLine s => some (te.1, s)
  | _ => none

/-- The remote call of an event, if it is a call. -/
def callOf (te : Nat × Event) : Option RemoteCall :=
  match te.2 with
  | Event.call c => some c
  | _ => none

/-- The client construction of an event, if it is one. -/
def openOf (te : Nat × Event) : Option Unit :=
  match te.2 with
  | Event.newClient => some ()
  | _ => none

/-- The lines a run prints, in order. -/
def outputLines (run : CmdRun) : List String :=
  run.trace.filterMap printedOf

/-- The lines a run prints together with the instants they are printed at. -/
def timedOutput (run : CmdRun) : List (Nat × String) :=
  run.trace.filterMap printedAtOf

/-- The remote calls a run issues, in order. -/
def remoteCalls (run : CmdRun) : List RemoteCall :=
  run.trace.filterMap callOf

/-- How many client instances a run constructs. -/
def clientOpens (run : CmdRun) : Nat :=
  (run.trace.filterMap openOf).length

/-! ## The commands -/

/-- The `create_model` command: build the location path, assemble the model
payload, issue the remote create call, echo the training operation name. -/
def create_model (env : Env)
    (project_id compute_region dataset_id model_name : String) : CmdRun :=
  let project_location := location_path project_id compute_region
  let my_model : ModelSpec :=
    { display_name := model_name
      dataset_id := dataset_id
      text_sentiment_model_metadata := () }
  let response := env.create_model project_location my_model
  { trace :=
      [ (0, Event.newClient),
        (0, Event.call (RemoteCall.createModel project_location my_model)),
        (0, Event.printLine ("Training operation name: " ++ response.operation.name)),
        (0, Event.printLine "Training started...") ]
    result := Except.ok () }

/-- The `get_operation_status` command: fetch and print the latest state of
a long-running operation. -/
def get_operation_status (env : Env) (operation_full_id : String) : CmdRun :=
  let response := env.get_operation operation_full_id
  { trace :=
      [ (0, Event.newClient),
        (0, Event.call (RemoteCall.getOperation operation_full_id)),
        (0, Event.printLine ("Operation status: " ++ response)) ]
    result := Except.ok () }

/-- The two-way deployment-state classification performed identically by
`list_models` and `get_model`: `DEPLOYED` maps to `"deployed"`, every other
value falls through the `else` branch to `"undeployed"`. -/
def deployment_state_label (s : Int) : String :=
  if s = DeploymentState.DEPLOYED then "deployed" else "undeployed"

/-- The five information lines printed for one model by both `list_models`
and `get_model`. -/
def modelInfoLines (env : Env) (model : Model) : List String :=
  let deployment_state := deployment_state_label model.deployment_state
  [ "Model name: " ++ model.name,
    "Model id: " ++ pySplitLast '/' model.name,
    "Model display name: " ++ model.display_name,
    "Model create time: " ++ strftimeZ (env.fromtimestamp model.create_time.seconds),
    "Model deployment state: " ++ deployment_state ]

/-- The `list_models` command: list the models under the location path with
a filter and print the information block of each. -/
def list_models (env : Env) (project_id compute_region filter_ : String) : CmdRun :=
  let project_location := location_path project_id compute_region
  let response := env.list_models project_location filter_
  { trace :=
      (0, Event.newClient)
        :: (0, Event.call (RemoteCall.listModels project_location filter_))
        :: (0, Event.printLine "List of models:")
        :: (response.flatMap fun model =>
              (modelInfoLines env model).map fun s => (0, Event.printLine s))
    result := Except.ok () }

/-- The `get_model` command: fetch one model by its path and print its
information block. -/
def get_model (env : Env) (project_id compute_region model_id : String) : CmdRun :=
  let model_full_id := model_path project_id compute_region model_id
  let model := env.get_model model_full_id
  { trace :=
      (0, Event.newClient)
        :: (0, Event.call (RemoteCall.getModel model_full_id))
        :: ((modelInfoLines env model).map fun s => (0, Event.printLine s))
    result := Except.ok () }

/-- The `list_model_evaluations` command: list the evaluations of a model
and print each one. -/
def list_model_evaluations (env : Env)
    (project_id compute_region model_id : String) : CmdRun :=
  let model_full_id := model_path project_id compute_region model_id
  let response := env.list_model_evaluations model_full_id
  { trace :=
      (0, Event.newClient)
        :: (0, Event.call (RemoteCall.listModelEvaluations model_full_id))
        :: (0, Event.printLine "List of model evaluations:")
        :: (response.map fun element =>
              (0, Event.printLine (env.render_model_evaluation element)))
    result := Except.ok () }

/-- The `get_model_evaluation` command: fetch one evaluation by its path and
print its raw sentiment metrics. -/
def get_model_evaluation (env : Env)
    (project_id compute_region model_id model_evaluation_id : String) : CmdRun :=
  let model_evaluation_full_id :=
    model_evaluation_path project_id compute_region model_id model_evaluation_id
  let response := env.get_model_evaluation model_evaluation_full_id
  let m := response.text_sentiment_evaluation_metrics
  { trace :=
      [ (0, Event.newClient),
        (0, Event.call (RemoteCall.getModelEvaluation model_evaluation_full_id)),
        (0, Event.printLine ("Sentiment model precision: " ++ showMetric m.precision)),
        (0, Event.printLine ("Sentiment model recall: " ++ showMetric m.recall_)),
        (0, Event.printLine ("Sentiment model f1 score: " ++ showMetric m.f1_score)) ]
    result := Except.ok () }

/-- The selector scan of `display_evaluation`.  The Python loop starts with
the local variable `model_evaluation_id` unbound (here `none`) and, on every
element whose `annotation_spec_id` is empty, rebinds it to that element's
final path segment; a non-matching element leaves it unchanged, and the loop
never exits early. -/
def findOverallEvaluationId (response : List ModelEvaluation) : Option String :=
  response.foldl
    (fun model_evaluation_id element =>
      if element.annotation_spec_id = "" then some (pySplitLast '/' element.name)
      else model_evaluation_id)
    none

/-- The message of the Python `NameError` raised when
`model_evaluation_id` is referenced while still unbound. -/
def nameErrorUnboundSelector : String :=
  "NameError: name model_evaluation_id is not defined"

/-- The seven percentage lines printed by `display_evaluation`, each value
multiplied by 100 and rounded to two decimal places. -/
def displayLines (sentiment_metrics : TextSentimentEvaluationMetrics) : List String :=
  [ "Model Precision: " ++ showRound2 (percentFormatValue sentiment_metrics.precision) ++ "%",
    "Model Recall: " ++ showRound2 (percentFormatValue sentiment_metrics.recall_) ++ "%",
    "Model F1 score: " ++ showRound2 (percentFormatValue sentiment_metrics.f1_score) ++ "%",
    "Model absolute error: " ++ showRound2 (percentFormatValue sentiment_metrics.mean_absolute_error) ++ "%",
    "Model mean squared error: " ++ showRound2 (percentFormatValue sentiment_metrics.mean_squared_error) ++ "%",
    "Model linear kappa: " ++ showRound2 (percentFormatValue sentiment_metrics.linear_kappa) ++ "%",
    "Model quadratic kappa: " ++ showRound2 (percentFormatValue sentiment_metrics.quadratic_kappa) ++ "%" ]

/-- The `display_evaluation` command: list the evaluations of the model,
scan for the overall one (empty `annotation_spec_id`), then fetch it by path
and print its rounded percentage metrics.  When the scan never matched, the
reference to the unbound selector raises a `NameError` before any fetch. -/
def display_evaluation (env : Env)
    (project_id compute_region model_id : String) : CmdRun :=
  let model_full_id := model_path project_id compute_region model_id
  let response := env.list_model_evaluations model_full_id
  match findOverallEvaluationId response with
  | none =>
      { trace :=
          [ (0, Event.newClient),
            (0, Event.call (RemoteCall.listModelEvaluations model_full_id)) ]
        result := Except.error nameErrorUnboundSelector }
  | some model_evaluation_id =>
      let model_evaluation_full_id :=
        model_evaluation_path project_id compute_region model_id model_evaluation_id
      let model_evaluation := env.get_model_evaluation model_evaluation_full_id
      let sentiment_metrics := model_evaluation.text_sentiment_evaluation_metrics
      { trace :=
          [ (0, Event.newClient),
            (0, Event.call (RemoteCall.listModelEvaluations model_full_id)),
            (0, Event.call (RemoteCall.getModelEvaluation model_evaluation_full_id)) ]
            ++ (displayLines sentiment_metrics).map fun s => (0, Event.printLine s)
        result := Except.ok () }

/-- The `delete_model` command: issue the remote delete, then block on
`response.result()` until the remote asynchronous deletion completes, and
only then print the confirmation.  The wait and the print are stamped with
the completion time of the returned operation future. -/
def delete_model (env : Env)
    (project_id compute_region model_id : String) : CmdRun :=
  let model_full_id := model_path project_id compute_region model_id
  let response := env.delete_model model_full_id
  { trace :=
      [ (0, Event.newClient),
        (0, Event.call (RemoteCall.deleteModel model_full_id)),
        (response.completesAt, Event.waitResult model_full_id),
        (response.completesAt,
          Event.printLine ("Model deleted. " ++ response.resultValue)) ]
    result := Except.ok () }

/-! ## Helper lemmas: the selector scan -/

/-- Scanning a stretch with no overall evaluation leaves the selector
unchanged. -/
lemma scan_no_match (l : List ModelEvaluation) (acc : Option String)
    (h : ∀ e ∈ l, e.annotation_spec_id ≠ "") :
    l.foldl
      (fun model_evaluation_id element =>
        if element.annotation_spec_id = "" then some (pySplitLast '/' element.name)
        else model_evaluation_id)
      acc = acc := by
  induction l generalizing acc with
  | nil => rfl
  | cons a t ih =>
    have ha : a.annotation_spec_id ≠ "" := h a (List.mem_cons_self a t)
    simp only [List.foldl_cons, if_neg ha]
    exact ih acc fun e he => h e (List.mem_cons_of_mem a he)

/-- When the response decomposes as a final overall evaluation followed only
by class-scoped ones, that final overall evaluation wins the scan. -/
lemma findOverall_last_match (xs ys : List ModelEvaluation) (e : ModelEvaluation)
    (he : e.annotation_spec_id = "")
    (hys : ∀ y ∈ ys, y.annotation_spec_id ≠ "") :
    findOverallEvaluationId (xs ++ e :: ys) = some (pySplitLast '/' e.name) := by
  unfold findOverallEvaluationId
  rw [List.foldl_append, List.foldl_cons, if_pos he]
  exact scan_no_match ys _ hys

/-- When some overall evaluation is present, the scan ends bound to the id
of one of the overall evaluations. -/
lemma findOverall_of_exists (l : List ModelEvaluation)
    (h : ∃ e ∈ l, e.annotation_spec_id = "") :
    ∃ e, e ∈ l ∧ e.annotation_spec_id = "" ∧
      findOverallEvaluationId l = some (pySplitLast '/' e.name) := by
  unfold findOverallEvaluationId
  suffices H : ∀ acc, ∃ e, e ∈ l ∧ e.annotation_spec_id = "" ∧
      l.foldl
        (fun model_evaluation_id element =>
          if element.annotation_spec_id = "" then some (pySplitLast '/' element.name)
          else model_evaluation_id)
        acc = some (pySplitLast '/' e.name) from H none
  induction l with
  | nil => simp at h
  | cons a t ih =>
    intro acc
    by_cases hM : ∃ e ∈ t, e.annotation_spec_id = ""
    · obtain ⟨e, hmem, hid, hfold⟩ := ih hM _
      exact ⟨e, List.mem_cons_of_mem a hmem, hid, hfold⟩
    · push_neg at hM
      have ha : a.annotation_spec_id = "" := by
        obtain ⟨e, hmem, hid⟩ := h
        rcases List.mem_cons.mp hmem with rfl | hmem
        · exact hid
        · exact absurd hid (hM e hmem)
      refine ⟨a, List.mem_cons_self a t, ha, ?_⟩
      simp only [List.foldl_cons, if_pos ha]
      exact scan_no_match t _ hM

/-! ## Helper lemmas: Python split versus last-segment suffix -/

/-- `splitChar` never returns the empty list of pieces. -/
lemma splitChar_ne_nil (sep : Char) : ∀ l : List Char, splitChar sep l ≠ []
  | [] => by simp [splitChar]
  | c :: cs => by
    simp only [splitChar]
    cases hsp : splitChar sep cs with
    | nil => simp
    | cons h t =>
      by_cases hc : c = sep <;> simp [hc]

/-- Splitting a list that does not contain the separator yields the single
piece consisting of the whole list. -/
lemma splitChar_no_sep (sep : Char) :
    ∀ l : List Char, sep ∉ l → splitChar sep l = [l]
  | [] => fun _ => rfl
  | c :: cs => fun h => by
    have hc : c ≠ sep := fun hc => h (hc ▸ List.mem_cons_self c cs)
    have hcs : sep ∉ cs := fun hm => h (List.mem_cons_of_mem c hm)
    simp only [splitChar, splitChar_no_sep sep cs hcs, if_neg hc]

/-- Unfolding of `splitChar` on a cons cell, given the split of the tail. -/
lemma splitChar_cons (sep c : Char) (cs : List Char)
    (h : List Char) (t : List (List Char)) (hsp : splitChar sep cs = h :: t) :
    splitChar sep (c :: cs) = if c = sep then [] :: h :: t else (c :: h) :: t := by
  simp only [splitChar, hsp]

/-- Splitting a list that does contain the separator yields at least two
pieces. -/
lemma splitChar_mem_length (sep : Char) :
    ∀ l : List Char, sep ∈ l → 2 ≤ (splitChar sep l).length
  | [] => fun h => absurd h (List.not_mem_nil sep)
  | c :: cs => fun h => by
    cases hsp : splitChar sep cs with
    | nil => exact absurd hsp (splitChar_ne_nil sep cs)
    | cons hd t =>
      rw [splitChar_cons sep c cs hd t hsp]
      by_cases hc : c = sep
      · rw [if_pos hc]
        simp
      · rw [if_neg hc]
        have hcs : sep ∈ cs := by
          rcases List.mem_cons.mp h with h1 | h1
          · exact absurd h1.symm hc
          · exact h1
        have h2 := splitChar_mem_length sep cs hcs
        rw [hsp] at h2
        simpa using h2

/-- A list with no separator is its own last-segment suffix. -/
lemma suffixAfterLast_no_sep (sep : Char) :
    ∀ l : List Char, sep ∉ l → suffixAfterLast sep l = l
  | [] => fun _ => rfl
  | c :: cs => fun h => by
    have hc : c ≠ sep := fun hc => h (hc ▸ List.mem_cons_self c cs)
    have hcs : sep ∉ cs := fun hm => h (List.mem_cons_of_mem c hm)
    simp [suffixAfterLast, hcs, hc]

/-- The default value of `getLastD` is irrelevant on a non-empty list. -/
lemma getLastD_irrel {α : Type} (x : α) (xs : List α) (d d' : α) :
    (x :: xs).getLastD d = (x :: xs).getLastD d' := by
  rw [List.getLastD_cons d x xs, List.getLastD_cons d' x xs]

/-- The final piece of the Python split at `sep` is exactly the suffix after
the last occurrence of `sep`. -/
lemma splitChar_getLastD (sep : Char) :
    ∀ l : List Char, (splitChar sep l).getLastD [] = suffixAfterLast sep l
  | [] => rfl
  | c :: cs => by
    have ih := splitChar_getLastD sep cs
    cases hsp : splitChar sep cs with
    | nil => exact absurd hsp (splitChar_ne_nil sep cs)
    | cons h t =>
      rw [hsp] at ih
      rw [splitChar_cons sep c cs h t hsp]
      by_cases hc : c = sep
      · rw [if_pos hc]
        rw [List.getLastD_cons ([] : List Char) ([] : List Char) (h :: t)]
        by_cases hcs : sep ∈ cs
        · simp only [suffixAfterLast]
          rw [if_pos hcs]
          exact ih
        · simp only [suffixAfterLast]
          rw [if_neg hcs, if_pos hc]
          rw [ih, suffixAfterLast_no_sep sep cs hcs]
      · rw [if_neg hc]
        cases t with
        | nil =>
          have hcs : sep ∉ cs := by
            intro hm
            have h2 := splitChar_mem_length sep cs hm
            rw [hsp] at h2
            simp at h2
          have hh : h = cs := by
            have h2 := splitChar_no_sep sep cs hcs
            rw [hsp] at h2
            simpa using h2
          subst hh
          simp [suffixAfterLast, hcs, hc]
        | cons t0 ts =>
          have hcs : sep ∈ cs := by
            by_contra hm
            have h2 := splitChar_no_sep sep cs hm
            rw [hsp] at h2
            simp at h2
          rw [List.getLastD_cons ([] : List Char) (c :: h) (t0 :: ts)]
          rw [List.getLastD_cons (c :: h) t0 ts]
          simp only [suffixAfterLast]
          rw [if_pos hcs, ← ih]
          rw [List.getLastD_cons ([] : List Char) h (t0 :: ts)]
          rw [List.getLastD_cons h t0 ts]

/-- String-level form: Python `name.split("/")[-1]` is the substring after
the last `/` separator. -/
lemma pySplitLast_eq_suffix (s : String) :
    pySplitLast '/' s = suffixAfterLastSlash s := by
  unfold pySplitLast suffixAfterLastSlash
  rw [splitChar_getLastD]

/-! ## Helper lemmas: resource-path structure -/

/-- Two strings with the same character data are equal. -/
lemma data_inj {a b : String} (h : a.data = b.data) : a = b := by
  cases a
  cases b
  exact congrArg String.mk h

/-- Character data of `location_path`, in separator-peeled normal form. -/
lemma location_path_data (p r : String) :
    (location_path p r).data =
      "projects".data ++ '/' :: (p.data ++ '/' :: ("locations".data ++ '/' :: r.data)) := by
  have h1 : "projects/".data = "projects".data ++ ['/'] := rfl
  have h2 : "/locations/".data = '/' :: ("locations".data ++ ['/']) := rfl
  simp only [location_path, String.data_append, h1, h2]
  simp [List.append_assoc]

/-- Character data of `model_path`, in separator-peeled normal form. -/
lemma model_path_data (p r m : String) :
    (model_path p r m).data =
      "projects".data ++ '/' :: (p.data ++ '/' :: ("locations".data ++ '/' ::
        (r.data ++ '/' :: ("models".data ++ '/' :: m.data)))) := by
  have h3 : "/models/".data = '/' :: ("models".data ++ ['/']) := rfl
  simp only [model_path, String.data_append, location_path_data, h3]
  simp [List.append_assoc]

/-- Character data of `model_evaluation_path`, in separator-peeled normal
form. -/
lemma model_evaluation_path_data (p r m e : String) :
    (model_evaluation_path p r m e).data =
      "projects".data ++ '/' :: (p.data ++ '/' :: ("locations".data ++ '/' ::
        (r.data ++ '/' :: ("models".data ++ '/' :: (m.data ++ '/' ::
          ("modelEvaluations".data ++ '/' :: e.data)))))) := by
  have h4 : "/modelEvaluations/".data = '/' :: ("modelEvaluations".data ++ ['/']) := rfl
  simp only [model_evaluation_path, String.data_append, model_path_data, h4]
  simp [List.append_assoc]

/-- Peeling one separator-free segment: if two concatenations agree and both
lead segments avoid the separator, the segments and the remainders agree. -/
lemma append_sep_inj {sep : Char} :
    ∀ {a a' b b' : List Char}, sep ∉ a → sep ∉ a' →
      a ++ sep :: b = a' ++ sep :: b' → a = a' ∧ b = b'
  | [], [], b, b' => fun _ _ h => ⟨rfl, by simpa using h⟩
  | [], c' :: cs', b, b' => fun _ ha' h => by
    have hc : sep = c' := by simpa using congrArg (fun l => l.headD sep) h
    exact absurd (hc ▸ List.mem_cons_self c' cs') ha'
  | c :: cs, [], b, b' => fun ha _ h => by
    have hc : c = sep := by simpa using congrArg (fun l => l.headD sep) h
    exact absurd (hc ▸ List.mem_cons_self c cs) ha
  | c :: cs, c' :: cs', b, b' => fun ha ha' h => by
    have hc : c = c' := by simpa using congrArg (fun l => l.headD sep) h
    subst hc
    have htl : cs ++ sep :: b = cs' ++ sep :: b' := by simpa using h
    have hcs : sep ∉ cs := fun hm => ha (List.mem_cons_of_mem c hm)
    have hcs' : sep ∉ cs' := fun hm => ha' (List.mem_cons_of_mem c hm)
    obtain ⟨h1, h2⟩ := append_sep_inj hcs hcs' htl
    exact ⟨by rw [h1], h2⟩

/-! ## Helper lemmas: evaluating traces -/

lemma printedOf_printLine (t : Nat) (s : String) :
    printedOf (t, Event.printLine s) = some s := rfl

lemma callOf_printLine (t : Nat) (s : String) :
    callOf (t, Event.printLine s) = none := rfl

lemma openOf_printLine (t : Nat) (s : String) :
    openOf (t, Event.printLine s) = none := rfl

lemma printedAtOf_printLine (t : Nat) (s : String) :
    printedAtOf (t, Event.printLine s) = some (t, s) := rfl

/-- Print-only trace segments contribute exactly their lines to the output. -/
lemma filterMap_printedOf_map (l : List String) :
    (l.map fun s => ((0 : Nat), Event.printLine s)).filterMap printedOf = l := by
  induction l with
  | nil => rfl
  | cons a t ih => simp [printedOf_printLine, ih]

/-- Print-only trace segments contribute no remote calls. -/
lemma filterMap_callOf_map (l : List String) :
    (l.map fun s => ((0 : Nat), Event.printLine s)).filterMap callOf = [] := by
  induction l with
  | nil => rfl
  | cons a t ih => simp [callOf_printLine, ih]

/-- Print-only trace segments construct no clients. -/
lemma filterMap_openOf_map (l : List String) :
    (l.map fun s => ((0 : Nat), Event.printLine s)).filterMap openOf = [] := by
  induction l with
  | nil => rfl
  | cons a t ih => simp [openOf_printLine, ih]

/-- Per-element print segments (as in `list_model_evaluations`) contribute
exactly the rendered lines. -/
lemma filterMap_printedOf_map_render {α : Type} (h : α → String) (l : List α) :
    (l.map fun x => ((0 : Nat), Event.printLine (h x))).filterMap printedOf = l.map h := by
  induction l with
  | nil => rfl
  | cons a t ih => simp [printedOf_printLine, ih]

/-- Per-element print segments contribute no remote calls. -/
lemma filterMap_callOf_map_render {α : Type} (h : α → String) (l : List α) :
    (l.map fun x => ((0 : Nat), Event.printLine (h x))).filterMap callOf = [] := by
  induction l with
  | nil => rfl
  | cons a t ih => simp [callOf_printLine, ih]

/-- Per-element print segments construct no clients. -/
lemma filterMap_openOf_map_render {α : Type} (h : α → String) (l : List α) :
    (l.map fun x => ((0 : Nat), Event.printLine (h x))).filterMap openOf = [] := by
  induction l with
  | nil => rfl
  | cons a t ih => simp [openOf_printLine, ih]

/-- Per-model print blocks (as in `list_models`) contribute exactly their
concatenated lines. -/
lemma filterMap_printedOf_flatMap {α : Type} (g : α → List String) (l : List α) :
    (l.flatMap fun x => (g x).map fun s => ((0 : Nat), Event.printLine s)).filterMap
      printedOf = l.flatMap g := by
  induction l with
  | nil => rfl
  | cons a t ih =>
    simp only [List.flatMap_cons, List.filterMap_append, ih]
    rw [filterMap_printedOf_map]

/-- Per-model print blocks contribute no remote calls. -/
lemma filterMap_callOf_flatMap {α : Type} (g : α → List String) (l : List α) :
    (l.flatMap fun x => (g x).map fun s => ((0 : Nat), Event.printLine s)).filterMap
      callOf = [] := by
  induction l with
  | nil => rfl
  | cons a t ih =>
    simp only [List.flatMap_cons, List.filterMap_append, ih]
    rw [filterMap_callOf_map]
    rfl

/-- Per-model print blocks construct no clients. -/
lemma filterMap_openOf_flatMap {α : Type} (g : α → List String) (l : List α) :
    (l.flatMap fun x => (g x).map fun s => ((0 : Nat), Event.printLine s)).filterMap
      openOf = [] := by
  induction l with
  | nil => rfl
  | cons a t ih =>
    simp only [List.flatMap_cons, List.filterMap_append, ih]
    rw [filterMap_openOf_map]
    rfl

/-- The run `display_evaluation` produces when the scan bound the selector
to `id`. -/
lemma display_evaluation_eq_some (env : Env) (p r m id : String)
    (hfind : findOverallEvaluationId (env.list_model_evaluations (model_path p r m)) =
      some id) :
    display_evaluation env p r m =
      { trace :=
          [ (0, Event.newClient),
            (0, Event.call (RemoteCall.listModelEvaluations (model_path p r m))),
            (0, Event.call (RemoteCall.getModelEvaluation
              (model_evaluation_path p r m id))) ]
            ++ (displayLines ((env.get_model_evaluation
                  (model_evaluation_path p r m id)).text_sentiment_evaluation_metrics)).map
                fun s => (0, Event.printLine s)
        result := Except.ok () } := by
  simp only [display_evaluation]
  rw [hfind]

/-- The run `display_evaluation` produces when the scan never matched and
the selector stayed unbound. -/
lemma display_evaluation_eq_none (env : Env) (p r m : String)
    (hfind : findOverallEvaluationId (env.list_model_evaluations (model_path p r m)) =
      none) :
    display_evaluation env p r m =
      { trace :=
          [ (0, Event.newClient),
            (0, Event.call (RemoteCall.listModelEvaluations (model_path p r m))) ]
        result := Except.error nameErrorUnboundSelector } := by
  simp only [display_evaluation]
  rw [hfind]

/-! ## Concrete sample data used by witnesses -/

/-- A sample metrics bundle with untied rounding behaviour. -/
def sampleMetrics : TextSentimentEvaluationMetrics :=
  { precision := 7/10
    recall_ := 3/5
    f1_score := 13/20
    mean_absolute_error := 1/10
    mean_squared_error := 1/20
    linear_kappa := 2/5
    quadratic_kappa := 3/10 }

/-- An overall (model-scoped) evaluation record. -/
def overallEvalA : ModelEvaluation :=
  { name := "projects/p/locations/us-central1/models/ICN123/modelEvaluations/111"
    annotation_spec_id := ""
    text_sentiment_evaluation_metrics := sampleMetrics }

/-- A second overall evaluation record, later in iteration order. -/
def overallEvalB : ModelEvaluation :=
  { name := "projects/p/locations/us-central1/models/ICN123/modelEvaluations/222"
    annotation_spec_id := ""
    text_sentiment_evaluation_metrics := sampleMetrics }

/-- A class-scoped evaluation record. -/
def classEval : ModelEvaluation :=
  { name := "projects/p/locations/us-central1/models/ICN123/modelEvaluations/333"
    annotation_spec_id := "5"
    text_sentiment_evaluation_metrics := sampleMetrics }

/-- A sample model record. -/
def sampleModel : Model :=
  { name := "projects/p/locations/us-central1/models/ICN123"
    display_name := "my_model"
    deployment_state := DeploymentState.DEPLOYED
    create_time := { seconds := 0 } }

/-- A concrete environment whose model list and evaluation list are the
given ones; all other calls return fixed records. -/
def mkEnv (mods : List Model) (evals : List ModelEvaluation) : Env :=
  { create_model := fun _ _ =>
      { operation := { name := "projects/p/locations/us-central1/operations/op1" } }
    get_operation := fun _ => "RUNNING"
    list_models := fun _ _ => mods
    get_model := fun name =>
      { name := name
        display_name := "my_model"
        deployment_state := DeploymentState.DEPLOYED
        create_time := { seconds := 0 } }
    list_model_evaluations := fun _ => evals
    get_model_evaluation := fun name =>
      { name := name
        annotation_spec_id := ""
        text_sentiment_evaluation_metrics := sampleMetrics }
    delete_model := fun _ => { completesAt := 3, resultValue := "" }
    fromtimestamp := fun _ =>
      { year := 1970, month := 1, day := 1, hour := 0, minute := 0, second := 0 }
    render_model_evaluation := fun element => element.name }

/-! ## Helper lemmas: rounding -/

/-- Rounding an integer value changes nothing. -/
lemma round_half_even_intCast (k : ℤ) : round_half_even (k : ℚ) = k := by
  unfold round_half_even
  simp only [Int.floor_intCast, sub_self]
  norm_num

/-! ## Claim theorems -/

/-- C3: the deployment-state classification used by `list_models` and
`get_model` is total and exhaustive: every possible remote deployment-state
value maps to exactly one of `"deployed"` and `"undeployed"`, with the
`DEPLOYED` enumeration value mapping to `"deployed"` and every other value
(including the unspecified and `UNDEPLOYED` values) mapping to
`"undeployed"`. -/
theorem C3_deployment_state_total_exhaustive :
    ∀ s : Int,
      (deployment_state_label s = "deployed" ∨ deployment_state_label s = "undeployed") ∧
      ¬(deployment_state_label s = "deployed" ∧ deployment_state_label s = "undeployed") ∧
      (deployment_state_label s = "deployed" ↔ s = DeploymentState.DEPLOYED) ∧
      deployment_state_label DeploymentState.UNSPECIFIED = "undeployed" ∧
      deployment_state_label DeploymentState.UNDEPLOYED = "undeployed" := by
  intro s
  by_cases hs : s = DeploymentState.DEPLOYED <;>
    simp [deployment_state_label, hs, DeploymentState.DEPLOYED,
      DeploymentState.UNSPECIFIED, DeploymentState.UNDEPLOYED] <;>
    exact Classical.em (s = 1)

/-- C6 counterexample: re-applying the full percentage formatting (multiply
by 100, round to two decimals) to its own output, parsed back as a number,
is not within 0.01 of the first output: at metric value 1 the first output
is 100 and the re-formatted value is 10000. -/
theorem C6_counterexample :
    ¬ (|percentFormatValue (percentFormatValue 1) - percentFormatValue 1| ≤ 1/100) := by
  norm_num [percentFormatValue, round2, round_half_even]

/-- C6 (amended): the rounding step of the percentage formatting is
idempotent: re-applying round-to-two-decimals to the formatted output
returns it exactly, hence within the 0.01 tolerance; it is the extra
multiplication by 100 in a full re-format that leaves the tolerance. -/
theorem C6_percent_rounding_idempotent (x : ℚ) :
    round2 (percentFormatValue x) = percentFormatValue x ∧
    |round2 (percentFormatValue x) - percentFormatValue x| ≤ 1/100 := by
  have hval : percentFormatValue x = ((round_half_even (x * 100 * 100) : ℤ) : ℚ) / 100 := rfl
  have hidem : round2 (percentFormatValue x) = percentFormatValue x := by
    rw [hval]
    unfold round2
    rw [div_mul_cancel₀ _ (by norm_num : (100 : ℚ) ≠ 0)]
    rw [round_half_even_intCast]
  exact ⟨hidem, by rw [hidem, sub_self, abs_zero]; norm_num⟩

/-- C4: for every model id, `delete_model` issues the remote delete call
and then blocks on the returned operation handle until the remote
asynchronous deletion completes: the confirmation print carries the
operation's result value and happens at the completion instant, strictly
after the delete call in the trace, and every line the command prints is
stamped no earlier than the completion instant. -/
theorem C4_delete_blocks_until_completion (env : Env)
    (project_id compute_region model_id : String) :
    ∃ i j : Nat, i < j ∧
      (delete_model env project_id compute_region model_id).trace[i]? =
        some (0, Event.call (RemoteCall.deleteModel
          (model_path project_id compute_region model_id))) ∧
      (delete_model env project_id compute_region model_id).trace[j]? =
        some ((env.delete_model (model_path project_id compute_region model_id)).completesAt,
          Event.printLine ("Model deleted. "
            ++ (env.delete_model (model_path project_id compute_region model_id)).resultValue)) ∧
      timedOutput (delete_model env project_id compute_region model_id) =
        [ ((env.delete_model (model_path project_id compute_region model_id)).completesAt,
           "Model deleted. "
             ++ (env.delete_model (model_path project_id compute_region model_id)).resultValue) ] ∧
      (delete_model env project_id compute_region model_id).result = Except.ok () := by
  refine ⟨1, 3, by norm_num, rfl, rfl, ?_, rfl⟩
  rfl

/-- C5: for well-formed components (no `/` inside any id), resource-path
construction is deterministic and injective: each of the location, model
and model-evaluation path builders yields equal strings exactly when the
respective input components are equal. -/
theorem C5_path_construction_injective
    (p r m e p' r' m' e' : String)
    (hp : NoSlash p) (hr : NoSlash r) (hm : NoSlash m) (he : NoSlash e)
    (hp' : NoSlash p') (hr' : NoSlash r') (hm' : NoSlash m') (he' : NoSlash e') :
    (location_path p r = location_path p' r' ↔ (p = p' ∧ r = r')) ∧
    (model_path p r m = model_path p' r' m' ↔ (p = p' ∧ r = r' ∧ m = m')) ∧
    (model_evaluation_path p r m e = model_evaluation_path p' r' m' e' ↔
      (p = p' ∧ r = r' ∧ m = m' ∧ e = e')) := by
  refine ⟨⟨fun h => ?_, fun h => by rw [h.1, h.2]⟩,
          ⟨fun h => ?_, fun h => by rw [h.1, h.2.1, h.2.2]⟩,
          ⟨fun h => ?_, fun h => by rw [h.1, h.2.1, h.2.2.1, h.2.2.2]⟩⟩
  · have hd := congrArg String.data h
    rw [location_path_data, location_path_data] at hd
    obtain ⟨-, hd⟩ := append_sep_inj (by decide) (by decide) hd
    obtain ⟨hpd, hd⟩ := append_sep_inj hp hp' hd
    obtain ⟨-, hd⟩ := append_sep_inj (by decide) (by decide) hd
    exact ⟨data_inj hpd, data_inj hd⟩
  · have hd := congrArg String.data h
    rw [model_path_data, model_path_data] at hd
    obtain ⟨-, hd⟩ := append_sep_inj (by decide) (by decide) hd
    obtain ⟨hpd, hd⟩ := append_sep_inj hp hp' hd
    obtain ⟨-, hd⟩ := append_sep_inj (by decide) (by decide) hd
    obtain ⟨hrd, hd⟩ := append_sep_inj hr hr' hd
    obtain ⟨-, hd⟩ := append_sep_inj (by decide) (by decide) hd
    exact ⟨data_inj hpd, data_inj hrd, data_inj hd⟩
  · have hd := congrArg String.data h
    rw [model_evaluation_path_data, model_evaluation_path_data] at hd
    obtain ⟨-, hd⟩ := append_sep_inj (by decide) (by decide) hd
    obtain ⟨hpd, hd⟩ := append_sep_inj hp hp' hd
    obtain ⟨-, hd⟩ := append_sep_inj (by decide) (by decide) hd
    obtain ⟨hrd, hd⟩ := append_sep_inj hr hr' hd
    obtain ⟨-, hd⟩ := append_sep_inj (by decide) (by decide) hd
    obtain ⟨hmd, hd⟩ := append_sep_inj hm hm' hd
    obtain ⟨-, hd⟩ := append_sep_inj (by decide) (by decide) hd
    exact ⟨data_inj hpd, data_inj hrd, data_inj hmd, data_inj hd⟩

/-- C5 witness: the injectivity statement instantiated at concrete
well-formed components, with every no-slash hypothesis discharged by
evaluation. -/
theorem C5_path_construction_injective_witness :
    NoSlash "p" ∧ NoSlash "us-central1" ∧ NoSlash "ICN123" ∧ NoSlash "111" ∧
    ((location_path "p" "us-central1" = location_path "p" "us-central1" ↔
        ("p" = "p" ∧ "us-central1" = "us-central1")) ∧
     (model_path "p" "us-central1" "ICN123" = model_path "p" "us-central1" "ICN123" ↔
        ("p" = "p" ∧ "us-central1" = "us-central1" ∧ "ICN123" = "ICN123")) ∧
     (model_evaluation_path "p" "us-central1" "ICN123" "111" =
        model_evaluation_path "p" "us-central1" "ICN123" "111" ↔
        ("p" = "p" ∧ "us-central1" = "us-central1" ∧ "ICN123" = "ICN123" ∧
          "111" = "111"))) :=
  ⟨by decide, by decide, by decide, by decide,
    C5_path_construction_injective "p" "us-central1" "ICN123" "111"
      "p" "us-central1" "ICN123" "111"
      (by decide) (by decide) (by decide) (by decide)
      (by decide) (by decide) (by decide) (by decide)⟩

/-- C7: when the remote evaluation-list result set is empty,
`list_model_evaluations` prints the list header followed by no evaluation
entries and completes successfully, having issued only the list call. -/
theorem C7_list_model_evaluations_empty (env : Env)
    (project_id compute_region model_id : String)
    (h : env.list_model_evaluations (model_path project_id compute_region model_id) = []) :
    (list_model_evaluations env project_id compute_region model_id).result = Except.ok () ∧
    outputLines (list_model_evaluations env project_id compute_region model_id) =
      ["List of model evaluations:"] ∧
    remoteCalls (list_model_evaluations env project_id compute_region model_id) =
      [RemoteCall.listModelEvaluations (model_path project_id compute_region model_id)] := by
  refine ⟨rfl, ?_, ?_⟩ <;>
    simp [list_model_evaluations, h, outputLines, remoteCalls, printedOf, callOf]

/-- C7 witness: the empty-result behaviour evaluated on a concrete
environment whose evaluation list is empty. -/
theorem C7_list_model_evaluations_empty_witness :
    (mkEnv [] []).list_model_evaluations (model_path "p" "us-central1" "ICN123") = [] ∧
    ((list_model_evaluations (mkEnv [] []) "p" "us-central1" "ICN123").result =
        Except.ok () ∧
      outputLines (list_model_evaluations (mkEnv [] []) "p" "us-central1" "ICN123") =
        ["List of model evaluations:"] ∧
      remoteCalls (list_model_evaluations (mkEnv [] []) "p" "us-central1" "ICN123") =
        [RemoteCall.listModelEvaluations (model_path "p" "us-central1" "ICN123")]) :=
  ⟨rfl, C7_list_model_evaluations_empty (mkEnv [] []) "p" "us-central1" "ICN123" rfl⟩

/-- C2: when no listed evaluation has an empty per-class annotation id,
`display_evaluation` fails by referencing the unset selector variable — the
opaque unbound-name error, not a descriptive not-found error — and issues
no evaluation fetch: its only remote call is the list call. -/
theorem C2_unset_selector_error (env : Env)
    (project_id compute_region model_id : String)
    (h : ∀ e ∈ env.list_model_evaluations (model_path project_id compute_region model_id),
      e.annotation_spec_id ≠ "") :
    (display_evaluation env project_id compute_region model_id).result =
      Except.error nameErrorUnboundSelector ∧
    remoteCalls (display_evaluation env project_id compute_region model_id) =
      [RemoteCall.listModelEvaluations (model_path project_id compute_region model_id)] := by
  have hfind : findOverallEvaluationId
      (env.list_model_evaluations (model_path project_id compute_region model_id)) = none := by
    unfold findOverallEvaluationId
    exact scan_no_match _ none h
  rw [display_evaluation_eq_none env project_id compute_region model_id hfind]
  exact ⟨rfl, rfl⟩

/-- C2 witness: the unbound-selector failure evaluated on a concrete
environment whose only evaluation is class-scoped. -/
theorem C2_unset_selector_error_witness :
    (∀ e ∈ (mkEnv [] [classEval]).list_model_evaluations
        (model_path "p" "us-central1" "ICN123"), e.annotation_spec_id ≠ "") ∧
    ((display_evaluation (mkEnv [] [classEval]) "p" "us-central1" "ICN123").result =
        Except.error nameErrorUnboundSelector ∧
      remoteCalls (display_evaluation (mkEnv [] [classEval]) "p" "us-central1" "ICN123") =
        [RemoteCall.listModelEvaluations (model_path "p" "us-central1" "ICN123")]) :=
  ⟨by decide,
    C2_unset_selector_error (mkEnv [] [classEval]) "p" "us-central1" "ICN123" (by decide)⟩

/-- C1: when the evaluation list contains an entry with an empty per-class
annotation id, `display_evaluation` succeeds: it selects the id of such an
entry (the final path segment of its name), fetches that evaluation, and
reports its precision, recall and F1 score each multiplied by 100 and
rounded to two decimal places. -/
theorem C1_display_evaluation_reports_overall (env : Env)
    (project_id compute_region model_id : String)
    (h : ∃ e ∈ env.list_model_evaluations (model_path project_id compute_region model_id),
      e.annotation_spec_id = "") :
    ∃ e M, e ∈ env.list_model_evaluations (model_path project_id compute_region model_id) ∧
      e.annotation_spec_id = "" ∧
      M = (env.get_model_evaluation (model_evaluation_path project_id compute_region
        model_id (pySplitLast '/' e.name))).text_sentiment_evaluation_metrics ∧
      (display_evaluation env project_id compute_region model_id).result = Except.ok () ∧
      remoteCalls (display_evaluation env project_id compute_region model_id) =
        [ RemoteCall.listModelEvaluations (model_path project_id compute_region model_id),
          RemoteCall.getModelEvaluation (model_evaluation_path project_id compute_region
            model_id (pySplitLast '/' e.name)) ] ∧
      outputLines (display_evaluation env project_id compute_region model_id) =
        displayLines M ∧
      ("Model Precision: " ++ showRound2 (round2 (M.precision * 100)) ++ "%")
        ∈ outputLines (display_evaluation env project_id compute_region model_id) ∧
      ("Model Recall: " ++ showRound2 (round2 (M.recall_ * 100)) ++ "%")
        ∈ outputLines (display_evaluation env project_id compute_region model_id) ∧
      ("Model F1 score: " ++ showRound2 (round2 (M.f1_score * 100)) ++ "%")
        ∈ outputLines (display_evaluation env project_id compute_region model_id) := by
  obtain ⟨e, hmem, hid, hfind⟩ := findOverall_of_exists _ h
  have hrun := display_evaluation_eq_some env project_id compute_region model_id
    (pySplitLast '/' e.name) hfind
  have hout : outputLines (display_evaluation env project_id compute_region model_id) =
      displayLines ((env.get_model_evaluation (model_evaluation_path project_id
        compute_region model_id
        (pySplitLast '/' e.name))).text_sentiment_evaluation_metrics) := by
    rw [hrun]
    simp only [outputLines, List.filterMap_append, filterMap_printedOf_map]
    rfl
  refine ⟨e, _, hmem, hid, rfl, ?_, ?_, hout, ?_, ?_, ?_⟩
  · rw [hrun]
  · rw [hrun]
    simp only [remoteCalls, List.filterMap_append, filterMap_callOf_map]
    rfl
  · rw [hout]
    simp [displayLines, percentFormatValue]
  · rw [hout]
    simp [displayLines, percentFormatValue]
  · rw [hout]
    simp [displayLines, percentFormatValue]

/-- C1 witness: the overall-evaluation reporting evaluated on a concrete
environment whose evaluation list contains a class-scoped entry followed by
an overall entry. -/
theorem C1_display_evaluation_reports_overall_witness :
    (∃ e ∈ (mkEnv [] [classEval, overallEvalA]).list_model_evaluations
        (model_path "p" "us-central1" "ICN123"), e.annotation_spec_id = "") ∧
    (∃ e M, e ∈ (mkEnv [] [classEval, overallEvalA]).list_model_evaluations
        (model_path "p" "us-central1" "ICN123") ∧
      e.annotation_spec_id = "" ∧
      M = ((mkEnv [] [classEval, overallEvalA]).get_model_evaluation
        (model_evaluation_path "p" "us-central1" "ICN123"
          (pySplitLast '/' e.name))).text_sentiment_evaluation_metrics ∧
      (display_evaluation (mkEnv [] [classEval, overallEvalA])
        "p" "us-central1" "ICN123").result = Except.ok () ∧
      remoteCalls (display_evaluation (mkEnv [] [classEval, overallEvalA])
          "p" "us-central1" "ICN123") =
        [ RemoteCall.listModelEvaluations (model_path "p" "us-central1" "ICN123"),
          RemoteCall.getModelEvaluation (model_evaluation_path "p" "us-central1" "ICN123"
            (pySplitLast '/' e.name)) ] ∧
      outputLines (display_evaluation (mkEnv [] [classEval, overallEvalA])
          "p" "us-central1" "ICN123") = displayLines M ∧
      ("Model Precision: " ++ showRound2 (round2 (M.precision * 100)) ++ "%")
        ∈ outputLines (display_evaluation (mkEnv [] [classEval, overallEvalA])
            "p" "us-central1" "ICN123") ∧
      ("Model Recall: " ++ showRound2 (round2 (M.recall_ * 100)) ++ "%")
        ∈ outputLines (display_evaluation (mkEnv [] [classEval, overallEvalA])
            "p" "us-central1" "ICN123") ∧
      ("Model F1 score: " ++ showRound2 (round2 (M.f1_score * 100)) ++ "%")
        ∈ outputLines (display_evaluation (mkEnv [] [classEval, overallEvalA])
            "p" "us-central1" "ICN123")) :=
  ⟨by decide,
    C1_display_evaluation_reports_overall (mkEnv [] [classEval, overallEvalA])
      "p" "us-central1" "ICN123" (by decide)⟩

/-- C10: when the evaluation list contains several entries with an empty
per-class annotation id, the scan overwrites the selector on every match
and never stops early, so the evaluation fetched and displayed is the one
derived from the final matching entry in iteration order. -/
theorem C10_last_matching_entry_selected (env : Env)
    (project_id compute_region model_id : String)
    (xs ys : List ModelEvaluation) (e : ModelEvaluation)
    (hresp : env.list_model_evaluations (model_path project_id compute_region model_id) =
      xs ++ e :: ys)
    (he : e.annotation_spec_id = "")
    (hys : ∀ y ∈ ys, y.annotation_spec_id ≠ "") :
    remoteCalls (display_evaluation env project_id compute_region model_id) =
      [ RemoteCall.listModelEvaluations (model_path project_id compute_region model_id),
        RemoteCall.getModelEvaluation (model_evaluation_path project_id compute_region
          model_id (pySplitLast '/' e.name)) ] ∧
    outputLines (display_evaluation env project_id compute_region model_id) =
      displayLines ((env.get_model_evaluation (model_evaluation_path project_id
        compute_region model_id
        (pySplitLast '/' e.name))).text_sentiment_evaluation_metrics) ∧
    (display_evaluation env project_id compute_region model_id).result = Except.ok () := by
  have hfind : findOverallEvaluationId
      (env.list_model_evaluations (model_path project_id compute_region model_id)) =
      some (pySplitLast '/' e.name) := by
    rw [hresp]
    exact findOverall_last_match xs ys e he hys
  have hrun := display_evaluation_eq_some env project_id compute_region model_id
    (pySplitLast '/' e.name) hfind
  refine ⟨?_, ?_, ?_⟩
  · rw [hrun]
    simp only [remoteCalls, List.filterMap_append, filterMap_callOf_map]
    rfl
  · rw [hrun]
    simp only [outputLines, List.filterMap_append, filterMap_printedOf_map]
    rfl
  · rw [hrun]

/-- C10 witness: with two overall entries followed by a class-scoped one,
the fetched path carries the id of the second overall entry. -/
theorem C10_last_matching_entry_selected_witness :
    (mkEnv [] [overallEvalA, overallEvalB, classEval]).list_model_evaluations
        (model_path "p" "us-central1" "ICN123") =
      [overallEvalA] ++ overallEvalB :: [classEval] ∧
    overallEvalB.annotation_spec_id = "" ∧
    (∀ y ∈ [classEval], y.annotation_spec_id ≠ "") ∧
    (remoteCalls (display_evaluation (mkEnv [] [overallEvalA, overallEvalB, classEval])
          "p" "us-central1" "ICN123") =
        [ RemoteCall.listModelEvaluations (model_path "p" "us-central1" "ICN123"),
          RemoteCall.getModelEvaluation (model_evaluation_path "p" "us-central1" "ICN123"
            (pySplitLast '/' overallEvalB.name)) ] ∧
      outputLines (display_evaluation (mkEnv [] [overallEvalA, overallEvalB, classEval])
          "p" "us-central1" "ICN123") =
        displayLines (((mkEnv [] [overallEvalA, overallEvalB, classEval]).get_model_evaluation
          (model_evaluation_path "p" "us-central1" "ICN123"
            (pySplitLast '/' overallEvalB.name))).text_sentiment_evaluation_metrics) ∧
      (display_evaluation (mkEnv [] [overallEvalA, overallEvalB, classEval])
          "p" "us-central1" "ICN123").result = Except.ok ()) :=
  ⟨rfl, rfl, by decide,
    C10_last_matching_entry_selected (mkEnv [] [overallEvalA, overallEvalB, classEval])
      "p" "us-central1" "ICN123" [overallEvalA] [classEval] overallEvalB
      rfl rfl (by decide)⟩

/-- C9: the printed model ids are the substring of the full resource name
after the last `/` separator: the Python `split`-based extraction agrees
with the last-segment suffix on every string, the id line of `get_model`
and of every model listed by `list_models` carries that suffix, and the
`display_evaluation` selector scan binds exactly that suffix of the
matching entry's name. -/
theorem C9_model_id_is_last_segment (env : Env)
    (project_id compute_region filter_ model_id s : String) (mo : Model)
    (resp : List ModelEvaluation)
    (hmo : mo ∈ env.list_models (location_path project_id compute_region) filter_) :
    pySplitLast '/' s = suffixAfterLastSlash s ∧
    ("Model id: " ++ suffixAfterLastSlash
        (env.get_model (model_path project_id compute_region model_id)).name)
      ∈ outputLines (get_model env project_id compute_region model_id) ∧
    ("Model id: " ++ suffixAfterLastSlash mo.name)
      ∈ outputLines (list_models env project_id compute_region filter_) ∧
    findOverallEvaluationId resp =
      resp.foldl
        (fun model_evaluation_id element =>
          if element.annotation_spec_id = ""
          then some (suffixAfterLastSlash element.name)
          else model_evaluation_id)
        none := by
  refine ⟨pySplitLast_eq_suffix s, ?_, ?_, ?_⟩
  · have hol : outputLines (get_model env project_id compute_region model_id) =
        modelInfoLines env
          (env.get_model (model_path project_id compute_region model_id)) := by
      simp only [outputLines, get_model, List.filterMap_cons, filterMap_printedOf_map]
      rfl
    rw [hol]
    simp [modelInfoLines, pySplitLast_eq_suffix]
  · have hol : outputLines (list_models env project_id compute_region filter_) =
        "List of models:" ::
          (env.list_models (location_path project_id compute_region)
            filter_).flatMap (modelInfoLines env) := by
      simp only [outputLines, list_models, List.filterMap_cons, filterMap_printedOf_flatMap]
      rfl
    rw [hol]
    refine List.mem_cons_of_mem _ (List.mem_flatMap.mpr ⟨mo, hmo, ?_⟩)
    simp [modelInfoLines, pySplitLast_eq_suffix]
  · unfold findOverallEvaluationId
    congr 1
    funext model_evaluation_id element
    rw [pySplitLast_eq_suffix]

/-- C9 witness: the last-segment agreement and the printed id lines
evaluated on a concrete environment listing one model. -/
theorem C9_model_id_is_last_segment_witness :
    sampleModel ∈ (mkEnv [sampleModel] []).list_models
        (location_path "p" "us-central1") "text_sentiment_model_metadata:*" ∧
    (pySplitLast '/' "projects/p/locations/us-central1/models/ICN123" =
        suffixAfterLastSlash "projects/p/locations/us-central1/models/ICN123" ∧
      ("Model id: " ++ suffixAfterLastSlash
          ((mkEnv [sampleModel] []).get_model
            (model_path "p" "us-central1" "ICN123")).name)
        ∈ outputLines (get_model (mkEnv [sampleModel] []) "p" "us-central1" "ICN123") ∧
      ("Model id: " ++ suffixAfterLastSlash sampleModel.name)
        ∈ outputLines (list_models (mkEnv [sampleModel] []) "p" "us-central1"
            "text_sentiment_model_metadata:*") ∧
      findOverallEvaluationId [classEval, overallEvalA] =
        [classEval, overallEvalA].foldl
          (fun model_evaluation_id element =>
            if element.annotation_spec_id = ""
            then some (suffixAfterLastSlash element.name)
            else model_evaluation_id)
          none) :=
  ⟨by decide,
    C9_model_id_is_last_segment (mkEnv [sampleModel] []) "p" "us-central1"
      "text_sentiment_model_metadata:*" "ICN123"
      "projects/p/locations/us-central1/models/ICN123" sampleModel
      [classEval, overallEvalA] (by decide)⟩

/-- C8 counterexample: `display_evaluation` issues more than one remote
call in a single invocation — on an environment with one overall evaluation
it performs both the evaluation-list call and the evaluation fetch. -/
theorem C8_counterexample :
    1 < (remoteCalls (display_evaluation (mkEnv [] [overallEvalA])
      "p" "us-central1" "ICN123")).length := by
  have hfind : findOverallEvaluationId
      ((mkEnv [] [overallEvalA]).list_model_evaluations
        (model_path "p" "us-central1" "ICN123")) =
      some (pySplitLast '/' overallEvalA.name) :=
    findOverall_last_match [] [] overallEvalA rfl (fun y hy => absurd hy (List.not_mem_nil y))
  rw [display_evaluation_eq_some _ _ _ _ _ hfind]
  simp only [remoteCalls, List.filterMap_append, filterMap_callOf_map]
  decide

/-- C8 (amended): every command opens exactly one client instance, and
every command issues exactly one logical remote call — except
`display_evaluation`, which issues the evaluation-list call and, whenever
the selector scan matched, a second call fetching the selected
evaluation. -/
theorem C8_one_client_per_command (env : Env)
    (project_id compute_region dataset_id model_name filter_
      operation_full_id model_id model_evaluation_id : String) :
    (clientOpens (create_model env project_id compute_region dataset_id model_name) = 1 ∧
      (remoteCalls (create_model env project_id compute_region dataset_id
        model_name)).length = 1) ∧
    (clientOpens (get_operation_status env operation_full_id) = 1 ∧
      (remoteCalls (get_operation_status env operation_full_id)).length = 1) ∧
    (clientOpens (list_models env project_id compute_region filter_) = 1 ∧
      (remoteCalls (list_models env project_id compute_region filter_)).length = 1) ∧
    (clientOpens (get_model env project_id compute_region model_id) = 1 ∧
      (remoteCalls (get_model env project_id compute_region model_id)).length = 1) ∧
    (clientOpens (list_model_evaluations env project_id compute_region model_id) = 1 ∧
      (remoteCalls (list_model_evaluations env project_id compute_region
        model_id)).length = 1) ∧
    (clientOpens (get_model_evaluation env project_id compute_region model_id
        model_evaluation_id) = 1 ∧
      (remoteCalls (get_model_evaluation env project_id compute_region model_id
        model_evaluation_id)).length = 1) ∧
    (clientOpens (delete_model env project_id compute_region model_id) = 1 ∧
      (remoteCalls (delete_model env project_id compute_region model_id)).length = 1) ∧
    (clientOpens (display_evaluation env project_id compute_region model_id) = 1 ∧
      (remoteCalls (display_evaluation env project_id compute_region model_id)).length =
        match findOverallEvaluationId (env.list_model_evaluations
          (model_path project_id compute_region model_id)) with
        | none => 1
        | some _ => 2) := by
  refine ⟨⟨rfl, rfl⟩, ⟨rfl, rfl⟩, ⟨?_, ?_⟩, ⟨rfl, rfl⟩, ⟨?_, ?_⟩, ⟨rfl, rfl⟩,
    ⟨rfl, rfl⟩, ⟨?_, ?_⟩⟩
  · simp only [clientOpens, list_models, List.filterMap_cons, filterMap_openOf_flatMap]
    rfl
  · simp only [remoteCalls, list_models, List.filterMap_cons, filterMap_callOf_flatMap]
    rfl
  · simp only [clientOpens, list_model_evaluations, List.filterMap_cons,
      filterMap_openOf_map_render]
    rfl
  · simp only [remoteCalls, list_model_evaluations, List.filterMap_cons,
      filterMap_callOf_map_render]
    rfl
  · cases hf : findOverallEvaluationId (env.list_model_evaluations
        (model_path project_id compute_region model_id)) with
    | none =>
      rw [display_evaluation_eq_none env project_id compute_region model_id hf]
      rfl
    | some id =>
      rw [display_evaluation_eq_some env project_id compute_region model_id id hf]
      simp only [clientOpens, List.filterMap_append, filterMap_openOf_map]
      rfl
  · cases hf : findOverallEvaluationId (env.list_model_evaluations
        (model_path project_id compute_region model_id)) with
    | none =>
      rw [display_evaluation_eq_none env project_id compute_region model_id hf]
      rfl
    | some id =>
      rw [display_evaluation_eq_some env project_id compute_region model_id id hf]
      simp only [remoteCalls, List.filterMap_append, filterMap_callOf_map]
      rfl

end AutoMLSample
